import Mathlib

/-!
Shallow embedding of `src/app/security.py` (XSS classification and output
securing engine).

Conventions of the embedding:
* Python strings are Lean `String`s; scanning and escaping work on the
  underlying `List Char` (`String.data`), one `Char` per Unicode code point,
  matching Python's per-code-point string model.
* `str.lower()` is modelled per-character with `Char.toLower` (ASCII folding);
  every catalog pattern and mode name is ASCII, so this matches Python on the
  characters the engine compares.
* `str.find(sub)` returning `-1` on failure is modelled as `Option Nat`
  (`none` for `-1`), with the same first-index semantics, including the
  Python convention that the empty pattern is found at index 0.
* Python `sorted` on strings (code-point lexicographic `<`) is modelled by
  `List.insertionSort` over `strLeP`; `sorted(set(xs))` — the sorted list of
  the distinct elements of `xs` — is `pySortedSet`.
* `html.escape(s)` (quote=True) performs five global single-character
  replacements (`&` `<` `>` `"` `'`); a single-character `str.replace` is
  exactly a per-character flat-map, giving `pyHtmlEscape`.
* `flask.current_app` lookups that would raise `RuntimeError` outside an
  application context are modelled by a `cfg : Option (Option String)`
  argument: `none` = no app context (RuntimeError), `some none` = config key
  absent, `some (some v)` = key set to `v`.
* The external logger used in `log` mode may raise; `loggerExc : Option ExcKind`
  says what exception (if any) the `current_app.logger.warning` call raises
  when it is attempted.  `secure_output` returns `Except ExcKind String`:
  `.error` models an exception propagating out of the Python function.
-/

/-- The apostrophe character `'` (code point 39). -/
def apos : Char := Char.ofNat 39

/-- The backtick character (code point 96). -/
def backtick : Char := Char.ofNat 96

/-- Python's `<` on strings, on the underlying code-point lists:
lexicographic comparison by code point. -/
def lexLt : List Char → List Char → Bool
  | _, [] => false
  | [], _ :: _ => true
  | a :: as, b :: bs =>
    if a.val.toNat < b.val.toNat then true
    else if b.val.toNat < a.val.toNat then false
    else lexLt as bs

/-- `a ≤ b` in Python's string order: `¬ (b < a)`. -/
def strLeP (a b : String) : Prop := lexLt b.data a.data = false

instance : DecidableRel strLeP := fun a b => by unfold strLeP; infer_instance

/-- Python `sorted` on a list of strings (ascending code-point order). -/
def pySorted (l : List String) : List String := List.insertionSort strLeP l

/-- Python `sorted(set(xs))`: the sorted list of the distinct elements. -/
def pySortedSet (l : List String) : List String := pySorted l.dedup

/-- Python `lowered = value.lower()` on the code-point list (ASCII folding). -/
def lowerL (s : List Char) : List Char := s.map Char.toLower

/-- `str.lower()` as a `String` operation. -/
def lowerS (s : String) : String := ⟨lowerL s.data⟩

/-- Python `s.find(pat)`, as `Option Nat` (`none` stands for `-1`):
the least index at which `pat` occurs as a substring of `s`. -/
def findSub (pat : List Char) : List Char → Option Nat
  | [] => if pat.isPrefixOf ([] : List Char) then some 0 else none
  | c :: rest =>
    if pat.isPrefixOf (c :: rest) then some 0
    else (findSub pat rest).map (· + 1)

/-- `PATTERN_GROUPS`: the pattern catalog, families in declaration order,
substrings in declaration order within each family (Python dicts preserve
insertion order).  `"\x27"` is an apostrophe and `"\x60"` a backtick; the
catalog's `"alert("` is literally `"alert("`. -/
def PATTERN_GROUPS : List (String × List String) :=
  [ ("script_tag", ["<script", "</script"]),
    ("active_tag", ["<iframe", "<frame", "<frameset", "srcdoc=", "<svg",
                    "<math", "<object", "<embed", "<video", "<audio",
                    "<source"]),
    ("image_tag", ["<img", "<image", "srcset=", "xlink:href"]),
    ("form_tag", ["<form", "<input", "<textarea", "<button", "<select",
                  "onsubmit=", "onreset="]),
    ("meta_tag", ["<meta", "http-equiv=\"refresh", "http-equiv=\x27refresh",
                  "charset="]),
    ("scheme", ["javascript:", "data:text/html", "data:text/javascript",
                "vbscript:"]),
    ("event", ["onerror=", "onload=", "onclick=", "onmouseover=",
               "onmouseenter=", "onmouseleave=", "onfocus=", "onblur=",
               "onkeydown=", "onkeyup=", "onkeypress=", "onpointerdown=",
               "onpointerup=", "onwheel="]),
    ("dom_sink", ["document.write", "document.writeln", "document.cookie",
                  "document.location", "window.location", "location.href",
                  "innerhtml", "outerhtml", "eval(", "settimeout(",
                  "setinterval("]),
    ("neutral_polyglot", ["</script><svg", "<svg><script", "\";alert(",
                          "\x27;alert(", "\x60;alert(", "alert("]),
    ("html_like", ["<html", "<body", "</html", "</body", "<!--", "-->"]) ]

/-- One entry of the `matches` list built by `_analyze_patterns`:
`{"group": …, "pattern": …, "index": …}`. -/
structure Match where
  group : String
  pattern : String
  index : Nat
deriving DecidableEq, Repr

/-- `_analyze_patterns(lowered)`: scan every family in catalog order and,
within a family, every substring in order; record a `Match` whenever
`lowered.find(pattern)` succeeds. -/
def _analyze_patterns (lowered : List Char) : List Match :=
  PATTERN_GROUPS.flatMap (fun gp =>
    gp.2.filterMap (fun pattern =>
      (findSub pattern.data lowered).map (fun idx => ⟨gp.1, pattern, idx⟩)))

/-- `_extract_categories(matches)`: `categories = sorted(set(groups))`;
`main_category` from `min(matches, key=index)` — Python's `min` keeps the
first element among those with the minimal key, modelled by a left fold that
replaces the current best only on a strictly smaller index. -/
def _extract_categories (matchList : List Match) : List String × Option String :=
  match matchList with
  | [] => ([], none)
  | m :: rest =>
    let categories := pySortedSet ((m :: rest).map (fun x => x.group))
    let first_match :=
      rest.foldl (fun best x => if x.index < best.index then x else best) m
    (categories, some first_match.group)

/-- The analysis dict returned by `analyze_input`. -/
structure Analysis where
  is_suspicious : Bool
  reasons : List String
  context : String
  matchList : List Match
  categories : List String
  main_category : Option String
deriving DecidableEq, Repr

/-- `analyze_input(value, context)`. -/
def analyze_input (value : String) (context : String) : Analysis :=
  if value = "" then
    { is_suspicious := false, reasons := [], context := context,
      matchList := [], categories := [], main_category := none }
  else
    let lowered := lowerL value.data
    let matchList := _analyze_patterns lowered
    let cats := _extract_categories matchList
    let groups_present := (matchList.map (fun m => m.group)).dedup
    let patterns_present := (matchList.map (fun m => m.pattern)).dedup
    let reasons :=
      (pySorted groups_present).map (fun g => "group:" ++ g)
        ++ (pySorted patterns_present).map (fun p => "pattern:" ++ p)
    { is_suspicious := !matchList.isEmpty, reasons := reasons,
      context := context, matchList := matchList,
      categories := cats.1, main_category := cats.2 }

/-- A global single-character `str.replace(target, repl)`. -/
def replaceChar (s : List Char) (target : Char) (repl : List Char) : List Char :=
  s.flatMap (fun c => if c = target then repl else [c])

/-- `html.escape(s)` with `quote=True`: replace `&`, then `<`, `>`, `"`, `'`. -/
def pyHtmlEscape (s : List Char) : List Char :=
  let s1 := replaceChar s '&' "&amp;".data
  let s2 := replaceChar s1 '<' "&lt;".data
  let s3 := replaceChar s2 '>' "&gt;".data
  let s4 := replaceChar s3 '"' "&quot;".data
  replaceChar s4 apos "&#x27;".data

/-- `html.escape` as a `String` operation. -/
def htmlEscapeS (s : String) : String := ⟨pyHtmlEscape s.data⟩

/-- `sanitize_for_context(value, context)`: `""` for `None`, else
`html.escape(value)` (context-agnostic). -/
def sanitize_for_context (value : Option String) (_context : String) : String :=
  match value with
  | none => ""
  | some s => htmlEscapeS s

/-- Python `value or ""` for an optional string (`None`-to-empty). -/
def orEmpty (v : Option String) : String := v.getD ""

/-- `get_security_mode()`: `cfg = none` models `current_app` raising
`RuntimeError` (caught, mode `"off"`); `some none` the key being absent
(`.get` default `"off"`); `some (some v)` the configured value `v`.
`(mode or "off").lower()` then the membership check on `{off, log, block}`. -/
def get_security_mode (cfg : Option (Option String)) : String :=
  let mode := match cfg with
    | none => "off"
    | some v => v.getD "off"
  let mode := lowerS (if mode = "" then "off" else mode)
  if mode ∈ (["off", "log", "block"] : List String) then mode else "off"

/-- Kind of exception the logging collaborator may raise inside the
`try` of `secure_output`'s `log` branch: Python's `RuntimeError` (the one
`except` clause) or any other exception class. -/
inductive ExcKind where
  | runtimeError
  | otherError
deriving DecidableEq, Repr

/-- `secure_output(value, context)`.  `loggerExc` is the exception (if any)
that `current_app.logger.warning(...)` raises when the suspicious-input log
line is attempted; only `RuntimeError` is caught by the `except` clause,
anything else propagates (`.error`). -/
def secure_output (cfg : Option (Option String)) (loggerExc : Option ExcKind)
    (value : Option String) (context : String) : Except ExcKind String :=
  let mode := get_security_mode cfg
  let analysis := analyze_input (orEmpty value) context
  if mode = "off" then
    Except.ok (orEmpty value)
  else
    let escaped := sanitize_for_context (some (orEmpty value)) context
    if mode = "log" then
      if analysis.is_suspicious then
        match loggerExc with
        | none => Except.ok escaped
        | some ExcKind.runtimeError => Except.ok escaped
        | some ExcKind.otherError => Except.error ExcKind.otherError
      else Except.ok escaped
    else if mode = "block" then
      if analysis.is_suspicious then
        Except.ok "[blocked by simple context-based filter]"
      else Except.ok escaped
    else Except.ok (orEmpty value)

/-- Response headers as an ordered multimap of (name, value) pairs;
header-name lookup is case-insensitive, as in Werkzeug's `Headers`. -/
def hasHeader (h : List (String × String)) (k : String) : Bool :=
  h.any (fun p => lowerS p.1 = lowerS k)

/-- `response.headers.setdefault(k, v)`: append `(k, v)` only when no header
named `k` is present. -/
def setdefault (h : List (String × String)) (k v : String) :
    List (String × String) :=
  if hasHeader h k then h else h ++ [(k, v)]

/-- First value of header `k`, if any. -/
def lookupHeader (h : List (String × String)) (k : String) : Option String :=
  (h.find? (fun p => lowerS p.1 = lowerS k)).map (fun p => p.2)

/-- Number of headers named `k`. -/
def countHeader (h : List (String × String)) (k : String) : Nat :=
  (h.filter (fun p => lowerS p.1 = lowerS k)).length

/-- `apply_security_headers(response)`. -/
def apply_security_headers (cfg : Option (Option String))
    (headers : List (String × String)) : List (String × String) :=
  let mode := get_security_mode cfg
  if mode ∈ (["log", "block"] : List String) then
    let csp := "default-src \x27self\x27; script-src \x27self\x27; object-src \x27none\x27;"
    let h1 := setdefault headers "Content-Security-Policy" csp
    let h2 := setdefault h1 "X-Content-Type-Options" "nosniff"
    setdefault h2 "X-Frame-Options" "DENY"
  else headers

/-! ## Order lemmas for Python's string comparison -/

theorem char_eq_of_toNat_eq {c d : Char} (h : c.val.toNat = d.val.toNat) :
    c = d :=
  Char.ext (UInt32.ext h)

theorem lexLt_asymm : ∀ a b : List Char, lexLt a b = true → lexLt b a = false := by
  intro a
  induction a with
  | nil =>
    intro b h
    cases b with
    | nil => simp [lexLt] at h
    | cons d ds => simp [lexLt]
  | cons c cs ih =>
    intro b h
    cases b with
    | nil => simp [lexLt] at h
    | cons d ds =>
      by_cases h1 : c.val.toNat < d.val.toNat
      · have h2 : ¬ d.val.toNat < c.val.toNat := by omega
        simp [lexLt, h1, h2]
      · by_cases h2 : d.val.toNat < c.val.toNat
        · simp [lexLt, h1, h2] at h
        · simp [lexLt, h1, h2] at h ⊢
          exact ih ds h

theorem lexLt_trans : ∀ a b c : List Char,
    lexLt a b = true → lexLt b c = true → lexLt a c = true := by
  intro a
  induction a with
  | nil =>
    intro b c hab hbc
    cases b with
    | nil => simp [lexLt] at hab
    | cons d ds =>
      cases c with
      | nil => simp [lexLt] at hbc
      | cons e es => simp [lexLt]
  | cons x xs ih =>
    intro b c hab hbc
    cases b with
    | nil => simp [lexLt] at hab
    | cons d ds =>
      cases c with
      | nil => simp [lexLt] at hbc
      | cons e es =>
        by_cases h1 : x.val.toNat < d.val.toNat
        · by_cases h2 : d.val.toNat < e.val.toNat
          · have : x.val.toNat < e.val.toNat := by omega
            simp [lexLt, this]
          · by_cases h3 : e.val.toNat < d.val.toNat
            · simp [lexLt, h2, h3] at hbc
            · have hde : d.val.toNat = e.val.toNat := by omega
              have : x.val.toNat < e.val.toNat := by omega
              simp [lexLt, this]
        · by_cases h1' : d.val.toNat < x.val.toNat
          · simp [lexLt, h1, h1'] at hab
          · have hxd : x.val.toNat = d.val.toNat := by omega
            simp [lexLt, h1, h1'] at hab
            by_cases h2 : d.val.toNat < e.val.toNat
            · have : x.val.toNat < e.val.toNat := by omega
              simp [lexLt, this]
            · by_cases h3 : e.val.toNat < d.val.toNat
              · simp [lexLt, h2, h3] at hbc
              · have h4 : ¬ x.val.toNat < e.val.toNat := by omega
                have h5 : ¬ e.val.toNat < x.val.toNat := by omega
                simp [lexLt, h2, h3] at hbc
                simp [lexLt, h4, h5]
                exact ih ds es hab hbc

theorem lexLt_eq_of_not : ∀ a b : List Char,
    lexLt a b = false → lexLt b a = false → a = b := by
  intro a
  induction a with
  | nil =>
    intro b hab hba
    cases b with
    | nil => rfl
    | cons d ds => simp [lexLt] at hab
  | cons c cs ih =>
    intro b hab hba
    cases b with
    | nil => simp [lexLt] at hba
    | cons d ds =>
      by_cases h1 : c.val.toNat < d.val.toNat
      · simp [lexLt, h1] at hab
      · by_cases h2 : d.val.toNat < c.val.toNat
        · simp [lexLt, h2] at hba
        · have hcd : c = d := char_eq_of_toNat_eq (by omega)
          simp [lexLt, h1, h2] at hab hba
          rw [hcd, ih ds hab hba]

theorem lexLt_append_left : ∀ (p a b : List Char),
    lexLt (p ++ a) (p ++ b) = lexLt a b := by
  intro p
  induction p with
  | nil => intro a b; rfl
  | cons c cs ih =>
    intro a b
    simp [lexLt, ih]

instance : IsTotal String strLeP := by
  constructor
  intro a b
  unfold strLeP
  by_cases h : lexLt b.data a.data = true
  · right
    exact lexLt_asymm _ _ h
  · left
    exact Bool.not_eq_true _ ▸ h

instance : IsTrans String strLeP := by
  constructor
  intro a b c hab hbc
  unfold strLeP at hab hbc ⊢
  by_cases hca : lexLt c.data a.data = true
  · by_cases hbc' : lexLt b.data c.data = true
    · exact absurd (lexLt_trans _ _ _ hbc' hca) (by rw [hab]; simp)
    · have hbc2 : b.data = c.data :=
        lexLt_eq_of_not _ _ (Bool.not_eq_true _ ▸ hbc') hbc
      rw [← hbc2] at hca
      simp [hab] at hca
  · exact Bool.not_eq_true _ ▸ hca

theorem string_eq_of_data_eq {a b : String} (h : a.data = b.data) : a = b :=
  congrArg String.mk h

theorem mem_pySorted {s : String} {l : List String} :
    s ∈ pySorted l ↔ s ∈ l :=
  (List.perm_insertionSort strLeP l).mem_iff

theorem sorted_pySorted (l : List String) : List.Sorted strLeP (pySorted l) :=
  List.sorted_insertionSort strLeP l

theorem nodup_pySorted {l : List String} (h : l.Nodup) : (pySorted l).Nodup :=
  ((List.perm_insertionSort strLeP l).nodup_iff).mpr h

/-! ## Unfolding and structure lemmas for the Classifier -/

theorem analyze_input_eq (v ctx : String) (hv : v ≠ "") :
    analyze_input v ctx =
      { is_suspicious := !(_analyze_patterns (lowerL v.data)).isEmpty,
        reasons :=
          (pySorted ((_analyze_patterns (lowerL v.data)).map
              (fun m => m.group)).dedup).map (fun g => "group:" ++ g)
            ++ (pySorted ((_analyze_patterns (lowerL v.data)).map
                (fun m => m.pattern)).dedup).map (fun p => "pattern:" ++ p),
        context := ctx,
        matchList := _analyze_patterns (lowerL v.data),
        categories := (_extract_categories (_analyze_patterns (lowerL v.data))).1,
        main_category := (_extract_categories (_analyze_patterns (lowerL v.data))).2 } := by
  rw [analyze_input, if_neg hv]

theorem mem_categories_of_mem {ms : List Match} {m : Match} (h : m ∈ ms) :
    m.group ∈ (_extract_categories ms).1 := by
  cases ms with
  | nil => cases h
  | cons a rest =>
    show m.group ∈ pySortedSet _
    rw [pySortedSet]
    exact mem_pySorted.mpr
      (List.mem_dedup.mpr (List.mem_map.mpr ⟨m, h, rfl⟩))

theorem minFold_decomp (ms : List Match) (m : Match) :
    ∃ l1 r l2, m :: ms = l1 ++ r :: l2
      ∧ ms.foldl (fun best x => if x.index < best.index then x else best) m = r
      ∧ (∀ x ∈ m :: ms, r.index ≤ x.index)
      ∧ (∀ x ∈ l1, r.index < x.index) := by
  induction ms generalizing m with
  | nil =>
    refine ⟨[], m, [], rfl, rfl, ?_, by simp⟩
    intro x hx
    rw [List.mem_singleton] at hx
    subst hx
    exact le_rfl
  | cons a rest ih =>
    rcases ih (if a.index < m.index then a else m) with
      ⟨l1, r, l2, hdec, hfold, hmin, hstrict⟩
    by_cases hcmp : a.index < m.index
    · rw [if_pos hcmp] at hdec hfold hmin
      refine ⟨m :: l1, r, l2, ?_, ?_, ?_, ?_⟩
      · rw [List.cons_append, ← hdec]
      · simpa [if_pos hcmp] using hfold
      · intro x hx
        rcases List.mem_cons.mp hx with rfl | hx'
        · have h1 : r.index ≤ a.index := hmin a (List.mem_cons_self a rest)
          omega
        · exact hmin x hx'
      · intro x hx
        rcases List.mem_cons.mp hx with rfl | hx'
        · have h1 : r.index ≤ a.index := hmin a (List.mem_cons_self a rest)
          omega
        · exact hstrict x hx'
    · rw [if_neg hcmp] at hdec hfold hmin
      cases l1 with
      | nil =>
        rw [List.nil_append] at hdec
        injection hdec with h1 h2
        refine ⟨[], r, a :: l2, ?_, ?_, ?_, ?_⟩
        · rw [List.nil_append, ← h1, ← h2]
        · simpa [if_neg hcmp] using hfold
        · intro x hx
          rcases List.mem_cons.mp hx with rfl | hx'
          · rw [← h1]
          · rcases List.mem_cons.mp hx' with rfl | hx''
            · rw [← h1]; omega
            · exact hmin x (List.mem_cons_of_mem m hx'')
        · intro x hx
          cases hx
      | cons b l1' =>
        rw [List.cons_append] at hdec
        injection hdec with h1 h2
        subst h1
        have hrm : r.index < m.index := hstrict m (List.mem_cons_self m l1')
        refine ⟨m :: a :: l1', r, l2, ?_, ?_, ?_, ?_⟩
        · rw [List.cons_append, List.cons_append, ← h2]
        · simpa [if_neg hcmp] using hfold
        · intro x hx
          rcases List.mem_cons.mp hx with rfl | hx'
          · exact hmin x (List.mem_cons_self x rest)
          · rcases List.mem_cons.mp hx' with rfl | hx''
            · omega
            · exact hmin x (List.mem_cons_of_mem m hx'')
        · intro x hx
          rcases List.mem_cons.mp hx with rfl | hx'
          · exact hrm
          · rcases List.mem_cons.mp hx' with rfl | hx''
            · omega
            · exact hstrict x (List.mem_cons_of_mem m hx'')

/-! ## Escaping lemmas -/

theorem mem_replaceChar {c : Char} {s : List Char} {t : Char} {r : List Char}
    (h : c ∈ replaceChar s t r) : c ∈ r ∨ (c ∈ s ∧ c ≠ t) := by
  rw [replaceChar, List.mem_flatMap] at h
  rcases h with ⟨a, ha, hc⟩
  by_cases hat : a = t
  · rw [if_pos hat] at hc
    exact Or.inl hc
  · rw [if_neg hat] at hc
    rw [List.mem_singleton] at hc
    subst hc
    exact Or.inr ⟨ha, hat⟩

theorem pyHtmlEscape_no_banned {s : List Char} :
    ∀ c ∈ pyHtmlEscape s, c ≠ '<' ∧ c ≠ '>' ∧ c ≠ '"' ∧ c ≠ apos := by
  intro c hc
  rw [pyHtmlEscape] at hc
  rcases mem_replaceChar hc with h5 | ⟨hc4, hne5⟩
  · simp only [List.mem_cons, List.not_mem_nil, or_false] at h5
    rcases h5 with rfl | rfl | rfl | rfl | rfl | rfl <;> decide
  · rcases mem_replaceChar hc4 with h4 | ⟨hc3, hne4⟩
    · simp only [List.mem_cons, List.not_mem_nil, or_false] at h4
      rcases h4 with rfl | rfl | rfl | rfl | rfl | rfl <;> decide
    · rcases mem_replaceChar hc3 with h3 | ⟨hc2, hne3⟩
      · simp only [List.mem_cons, List.not_mem_nil, or_false] at h3
        rcases h3 with rfl | rfl | rfl | rfl <;> decide
      · rcases mem_replaceChar hc2 with h2 | ⟨hc1, hne2⟩
        · simp only [List.mem_cons, List.not_mem_nil, or_false] at h2
          rcases h2 with rfl | rfl | rfl | rfl <;> decide
        · exact ⟨hne2, hne3, hne4, hne5⟩

theorem forall_ne_banned_of_all {l : List Char}
    (h : (l.all fun c =>
        decide (c ≠ '<' ∧ c ≠ '>' ∧ c ≠ '"' ∧ c ≠ apos)) = true) :
    ∀ c ∈ l, c ≠ '<' ∧ c ≠ '>' ∧ c ≠ '"' ∧ c ≠ apos := by
  intro c hc
  exact of_decide_eq_true (List.all_eq_true.mp h c hc)

/-! ## Claims about the Output Securer and Security Mode Resolution -/

/-- C4: `get_security_mode` always returns a member of `{off, log, block}`
and never raises (it is a total function): with the configuration source
unavailable (`cfg = none`), the setting absent (`some none`), or the setting
holding a value whose lowercased form is outside the set, it returns `"off"`;
a value whose lowercased form is in the set is returned lowercased. -/
theorem get_security_mode_resolution (cfg : Option (Option String)) :
    get_security_mode cfg ∈ (["off", "log", "block"] : List String)
    ∧ (cfg = none → get_security_mode cfg = "off")
    ∧ (cfg = some none → get_security_mode cfg = "off")
    ∧ (∀ v, cfg = some (some v) →
        lowerS v ∉ (["off", "log", "block"] : List String) →
        get_security_mode cfg = "off")
    ∧ (∀ v, cfg = some (some v) →
        lowerS v ∈ (["off", "log", "block"] : List String) →
        get_security_mode cfg = lowerS v) := by
  refine ⟨?_, ?_, ?_, ?_, ?_⟩
  · rcases cfg with _ | v
    · decide
    · rcases v with _ | s
      · decide
      · by_cases hs : s = ""
        · subst hs; decide
        · rw [get_security_mode]
          simp only [Option.getD_some, if_neg hs]
          by_cases hm : lowerS s ∈ (["off", "log", "block"] : List String)
          · rw [if_pos hm]; exact hm
          · rw [if_neg hm]; decide
  · intro h; subst h; decide
  · intro h; subst h; decide
  · intro v h hm
    subst h
    by_cases hs : v = ""
    · subst hs; decide
    · rw [get_security_mode]
      simp only [Option.getD_some, if_neg hs]
      rw [if_neg hm]
  · intro v h hm
    subst h
    have hs : v ≠ "" := by
      intro he
      subst he
      exact absurd hm (by decide)
    rw [get_security_mode]
    simp only [Option.getD_some, if_neg hs]
    rw [if_pos hm]

/-- Witness for C4 at concrete configurations. -/
theorem get_security_mode_resolution_witness :
    ((some (some "BLOCK") : Option (Option String)) = some (some "BLOCK")
      ∧ lowerS "BLOCK" ∈ (["off", "log", "block"] : List String)
      ∧ get_security_mode (some (some "BLOCK")) = lowerS "BLOCK")
    ∧ get_security_mode none = "off" :=
  ⟨⟨rfl, by decide,
    (get_security_mode_resolution (some (some "BLOCK"))).2.2.2.2 "BLOCK" rfl
      (by decide)⟩,
   (get_security_mode_resolution none).2.1 rfl⟩

/-- C3: when the security mode is `off`, `secure_output` is the identity
transform on every string value (for any logger behaviour), and an
absent/`None` value is returned as the empty string. -/
theorem secure_output_off_identity (cfg : Option (Option String))
    (loggerExc : Option ExcKind) (v : Option String) (ctx : String)
    (hm : get_security_mode cfg = "off") :
    (∀ s, v = some s → secure_output cfg loggerExc v ctx = Except.ok s)
    ∧ (v = none → secure_output cfg loggerExc v ctx = Except.ok "") := by
  constructor
  · intro s hs
    subst hs
    simp [secure_output, hm, orEmpty]
  · intro hn
    subst hn
    simp [secure_output, hm, orEmpty]

/-- Witness for C3: mode `off` (here: the configured value is `"OFF"`)
passes a script payload through raw, and `None` becomes `""`. -/
theorem secure_output_off_identity_witness :
    get_security_mode (some (some "OFF")) = "off"
    ∧ secure_output (some (some "OFF")) none (some "<script>") "html"
        = Except.ok "<script>"
    ∧ secure_output (some (some "OFF")) none none "html" = Except.ok "" :=
  ⟨by decide,
   (secure_output_off_identity (some (some "OFF")) none (some "<script>") "html"
      (by decide)).1 "<script>" rfl,
   (secure_output_off_identity (some (some "OFF")) none none "html"
      (by decide)).2 rfl⟩

/-- Both branches of `secure_output`'s `block` mode (helper shared by the
block-mode and render-readiness results below). -/
theorem secure_output_block_cases (cfg : Option (Option String))
    (loggerExc : Option ExcKind) (v : Option String) (ctx : String)
    (hm : get_security_mode cfg = "block") :
    ((analyze_input (orEmpty v) ctx).is_suspicious = true →
      secure_output cfg loggerExc v ctx
        = Except.ok "[blocked by simple context-based filter]")
    ∧ ((analyze_input (orEmpty v) ctx).is_suspicious = false →
      secure_output cfg loggerExc v ctx
        = Except.ok (htmlEscapeS (orEmpty v))) := by
  constructor
  · intro hsusp
    simp [secure_output, hm, hsusp]
  · intro hsusp
    simp [secure_output, hm, hsusp, sanitize_for_context]

/-- C1: in `block` mode, a value whose analysis is suspicious is replaced by
exactly the sentinel string `"[blocked by simple context-based filter]"`,
regardless of the value's content; a non-suspicious value is returned
HTML-escaped. -/
theorem secure_output_block_sentinel (cfg : Option (Option String))
    (loggerExc : Option ExcKind) (v : Option String) (ctx : String)
    (hm : get_security_mode cfg = "block") :
    ((analyze_input (orEmpty v) ctx).is_suspicious = true →
      secure_output cfg loggerExc v ctx
        = Except.ok "[blocked by simple context-based filter]")
    ∧ ((analyze_input (orEmpty v) ctx).is_suspicious = false →
      secure_output cfg loggerExc v ctx
        = Except.ok (htmlEscapeS (orEmpty v))) :=
  secure_output_block_cases cfg loggerExc v ctx hm

/-- Witness for C1: a suspicious payload is blocked, a benign one escaped. -/
theorem secure_output_block_sentinel_witness :
    get_security_mode (some (some "block")) = "block"
    ∧ (analyze_input (orEmpty (some "<script>alert(1)")) "html").is_suspicious
        = true
    ∧ secure_output (some (some "block")) none (some "<script>alert(1)") "html"
        = Except.ok "[blocked by simple context-based filter]"
    ∧ (analyze_input (orEmpty (some "hello")) "html").is_suspicious = false
    ∧ secure_output (some (some "block")) none (some "hello") "html"
        = Except.ok (htmlEscapeS (orEmpty (some "hello"))) :=
  ⟨by decide, by decide,
   (secure_output_block_sentinel (some (some "block")) none
      (some "<script>alert(1)") "html" (by decide)).1 (by decide),
   by decide,
   (secure_output_block_sentinel (some (some "block")) none (some "hello")
      "html" (by decide)).2 (by decide)⟩

/-- Both branches of `secure_output`'s `log` mode (helper shared by the
log-mode, exception-tolerance and render-readiness results below). -/
theorem secure_output_log_cases (cfg : Option (Option String))
    (loggerExc : Option ExcKind) (v : Option String) (ctx : String)
    (hm : get_security_mode cfg = "log") :
    (∀ s, secure_output cfg loggerExc v ctx = Except.ok s →
      s = htmlEscapeS (orEmpty v))
    ∧ (loggerExc ≠ some ExcKind.otherError →
      secure_output cfg loggerExc v ctx = Except.ok (htmlEscapeS (orEmpty v))) := by
  constructor
  · intro s hs
    rw [secure_output] at hs
    simp only [hm] at hs
    by_cases hsusp : (analyze_input (orEmpty v) ctx).is_suspicious
    · simp only [if_neg (by decide : ¬("log" : String) = "off"),
        if_pos rfl, hsusp, if_true] at hs
      rcases loggerExc with _ | e
      · simp [sanitize_for_context] at hs
        exact hs.symm
      · cases e
        · simp [sanitize_for_context] at hs
          exact hs.symm
        · simp at hs
    · simp only [if_neg (by decide : ¬("log" : String) = "off"),
        if_pos rfl, hsusp, if_false] at hs
      simp [sanitize_for_context] at hs
      exact hs.symm
  · intro hl
    rw [secure_output]
    simp only [hm]
    by_cases hsusp : (analyze_input (orEmpty v) ctx).is_suspicious
    · rcases loggerExc with _ | e
      · simp [hsusp, sanitize_for_context]
      · cases e
        · simp [hsusp, sanitize_for_context]
        · exact absurd rfl hl
    · simp [hsusp, sanitize_for_context]

/-- C2: in `log` mode, every string `secure_output` returns is exactly one
application of `html.escape` to the value (entity-escaping `< > & " '`),
whether or not the value is classified as suspicious; whenever the log
attempt does not raise a non-`RuntimeError` exception, that escaped string
is in fact returned. -/
theorem secure_output_log_single_escape (cfg : Option (Option String))
    (loggerExc : Option ExcKind) (v : Option String) (ctx : String)
    (hm : get_security_mode cfg = "log") :
    (∀ s, secure_output cfg loggerExc v ctx = Except.ok s →
      s = htmlEscapeS (orEmpty v))
    ∧ (loggerExc ≠ some ExcKind.otherError →
      secure_output cfg loggerExc v ctx = Except.ok (htmlEscapeS (orEmpty v))) :=
  secure_output_log_cases cfg loggerExc v ctx hm

/-- Witness for C2: in `log` mode a suspicious payload is returned escaped
once (`<`/`>` become entities), same shape as for any other value. -/
theorem secure_output_log_single_escape_witness :
    get_security_mode (some (some "log")) = "log"
    ∧ (some ExcKind.runtimeError ≠ some ExcKind.otherError)
    ∧ secure_output (some (some "log")) (some ExcKind.runtimeError)
        (some "<script>alert(1)</script>") "html"
        = Except.ok (htmlEscapeS (orEmpty (some "<script>alert(1)</script>")))
    ∧ htmlEscapeS (orEmpty (some "<script>alert(1)</script>"))
        = "&lt;script&gt;alert(1)&lt;/script&gt;" :=
  ⟨by decide, by decide,
   (secure_output_log_single_escape (some (some "log"))
      (some ExcKind.runtimeError) (some "<script>alert(1)</script>") "html"
      (by decide)).2 (by decide),
   by decide⟩

/-- C6 counterexample: the claim says *any* failure raised by the logging
collaborator is tolerated, but the `except` clause only catches
`RuntimeError`; with a suspicious value and a logger raising any other
exception class, `secure_output` propagates the exception instead of
returning the escaped value. -/
theorem secure_output_log_other_exception_propagates :
    secure_output (some (some "log")) (some ExcKind.otherError)
      (some "<script>") "html" = Except.error ExcKind.otherError := by
  rfl

/-- C6 amended: in `log` mode, a `RuntimeError` raised during the
suspicious-input log emission (the only exception class the `except` clause
catches, e.g. logging outside an application context) is tolerated silently:
`secure_output` still returns the escaped value to the caller and propagates
no exception; exception classes other than `RuntimeError` are not caught. -/
theorem secure_output_log_runtime_error_tolerated (cfg : Option (Option String))
    (loggerExc : Option ExcKind) (v : Option String) (ctx : String)
    (hm : get_security_mode cfg = "log")
    (hl : loggerExc = none ∨ loggerExc = some ExcKind.runtimeError) :
    secure_output cfg loggerExc v ctx = Except.ok (htmlEscapeS (orEmpty v)) := by
  refine (secure_output_log_cases cfg loggerExc v ctx hm).2 ?_
  rcases hl with rfl | rfl <;> simp

/-- Witness for the amended C6: a `RuntimeError` from the logger is swallowed
and the escaped suspicious value is still returned. -/
theorem secure_output_log_runtime_error_tolerated_witness :
    get_security_mode (some (some "log")) = "log"
    ∧ ((some ExcKind.runtimeError : Option ExcKind) = none
        ∨ (some ExcKind.runtimeError : Option ExcKind)
            = some ExcKind.runtimeError)
    ∧ secure_output (some (some "log")) (some ExcKind.runtimeError)
        (some "<script>") "html"
        = Except.ok (htmlEscapeS (orEmpty (some "<script>"))) :=
  ⟨by decide, Or.inr rfl,
   secure_output_log_runtime_error_tolerated (some (some "log"))
     (some ExcKind.runtimeError) (some "<script>") "html" (by decide)
     (Or.inr rfl)⟩

/-- C10: in `log` or `block` mode, any string `secure_output` returns
contains none of the raw characters `<`, `>`, `"`, `'`: the escaped branch
replaces all of them (and `&`) with HTML entities and the block sentinel
contains none of them, so the output is render-ready without further
escaping. -/
theorem secure_output_render_ready (cfg : Option (Option String))
    (loggerExc : Option ExcKind) (v : Option String) (ctx : String)
    (hm : get_security_mode cfg = "log" ∨ get_security_mode cfg = "block")
    (s : String) (h : secure_output cfg loggerExc v ctx = Except.ok s) :
    ∀ c ∈ s.data, c ≠ '<' ∧ c ≠ '>' ∧ c ≠ '"' ∧ c ≠ apos := by
  rcases hm with hm | hm
  · have hs := (secure_output_log_cases cfg loggerExc v ctx hm).1 s h
    subst hs
    exact pyHtmlEscape_no_banned
  · by_cases hsusp : (analyze_input (orEmpty v) ctx).is_suspicious
    · have hb :=
        (secure_output_block_cases cfg loggerExc v ctx hm).1 hsusp
      rw [h] at hb
      injection hb with hb
      subst hb
      exact forall_ne_banned_of_all (by decide)
    · have hb :=
        (secure_output_block_cases cfg loggerExc v ctx hm).2
          (Bool.not_eq_true _ ▸ hsusp)
      rw [h] at hb
      injection hb with hb
      subst hb
      exact pyHtmlEscape_no_banned

/-- Witness for C10: the blocked output of a suspicious payload contains no
raw `<`, `>`, `"` or `'`. -/
theorem secure_output_render_ready_witness :
    (get_security_mode (some (some "block")) = "log"
      ∨ get_security_mode (some (some "block")) = "block")
    ∧ secure_output (some (some "block")) none (some "<script>") "html"
        = Except.ok "[blocked by simple context-based filter]"
    ∧ ∀ c ∈ ("[blocked by simple context-based filter]" : String).data,
        c ≠ '<' ∧ c ≠ '>' ∧ c ≠ '"' ∧ c ≠ apos :=
  ⟨Or.inr (by decide), by rfl,
   secure_output_render_ready (some (some "block")) none (some "<script>")
     "html" (Or.inr (by decide)) _ (by rfl)⟩

/-! ## Claims about the Classifier -/

/-- C8: every input whose lowercased form contains the substring `"<script"`
is classified as suspicious, with `"script_tag"` among its categories. -/
theorem analyze_script_tag (v ctx : String)
    (h : (findSub "<script".data (lowerL v.data)).isSome = true) :
    (analyze_input v ctx).is_suspicious = true
    ∧ "script_tag" ∈ (analyze_input v ctx).categories := by
  have hv : v ≠ "" := by
    intro he
    subst he
    exact absurd h (by decide)
  obtain ⟨idx, hidx⟩ := Option.isSome_iff_exists.mp h
  have hmem : (⟨"script_tag", "<script", idx⟩ : Match)
      ∈ _analyze_patterns (lowerL v.data) := by
    rw [_analyze_patterns, List.mem_flatMap]
    refine ⟨("script_tag", ["<script", "</script"]), by simp [PATTERN_GROUPS], ?_⟩
    rw [List.mem_filterMap]
    exact ⟨"<script", by simp, by rw [hidx]; rfl⟩
  constructor
  · rw [analyze_input_eq v ctx hv]
    rcases hl : _analyze_patterns (lowerL v.data) with _ | ⟨a, rest⟩
    · rw [hl] at hmem
      cases hmem
    · rfl
  · rw [analyze_input_eq v ctx hv]
    exact mem_categories_of_mem hmem

/-- Witness for C8: `"abc<SCRIPT>x"` lowercases to contain `"<script"` and is
flagged with the `script_tag` category. -/
theorem analyze_script_tag_witness :
    (findSub "<script".data (lowerL ("abc<SCRIPT>x" : String).data)).isSome = true
    ∧ (analyze_input "abc<SCRIPT>x" "html").is_suspicious = true
    ∧ "script_tag" ∈ (analyze_input "abc<SCRIPT>x" "html").categories :=
  ⟨by decide,
   (analyze_script_tag "abc<SCRIPT>x" "html" (by decide)).1,
   (analyze_script_tag "abc<SCRIPT>x" "html" (by decide)).2⟩

/-- C9: for every non-empty input, `reasons` is a block of `"group:<tag>"`
strings followed by a block of `"pattern:<substring>"` strings, each block
deduplicated and lexicographically sorted, the group block describing exactly
the triggered families and the pattern block exactly the triggered
substrings. -/
theorem analyze_reasons_structure (v ctx : String) (hv : v ≠ "") :
    ∃ A B, (analyze_input v ctx).reasons = A ++ B
      ∧ List.Sorted strLeP A ∧ A.Nodup
      ∧ (∀ s, s ∈ A ↔
          ∃ m ∈ (analyze_input v ctx).matchList, s = "group:" ++ m.group)
      ∧ List.Sorted strLeP B ∧ B.Nodup
      ∧ (∀ s, s ∈ B ↔
          ∃ m ∈ (analyze_input v ctx).matchList, s = "pattern:" ++ m.pattern) := by
  rw [analyze_input_eq v ctx hv]
  refine ⟨(pySorted ((_analyze_patterns (lowerL v.data)).map
      (fun m => m.group)).dedup).map (fun g => "group:" ++ g),
    (pySorted ((_analyze_patterns (lowerL v.data)).map
      (fun m => m.pattern)).dedup).map (fun p => "pattern:" ++ p),
    rfl, ?_, ?_, ?_, ?_, ?_, ?_⟩
  · exact List.Pairwise.map _
      (fun a b hab => by
        unfold strLeP at hab ⊢
        rw [String.data_append, String.data_append, lexLt_append_left]
        exact hab)
      (sorted_pySorted _)
  · refine List.Nodup.map ?_ (nodup_pySorted (List.nodup_dedup _))
    intro a b hab
    have h2 := congrArg String.data hab
    rw [String.data_append, String.data_append] at h2
    exact string_eq_of_data_eq (List.append_cancel_left h2)
  · intro s
    rw [List.mem_map]
    constructor
    · rintro ⟨g, hg, rfl⟩
      rw [mem_pySorted, List.mem_dedup, List.mem_map] at hg
      rcases hg with ⟨m, hm, rfl⟩
      exact ⟨m, hm, rfl⟩
    · rintro ⟨m, hm, rfl⟩
      exact ⟨m.group,
        mem_pySorted.mpr (List.mem_dedup.mpr (List.mem_map.mpr ⟨m, hm, rfl⟩)),
        rfl⟩
  · exact List.Pairwise.map _
      (fun a b hab => by
        unfold strLeP at hab ⊢
        rw [String.data_append, String.data_append, lexLt_append_left]
        exact hab)
      (sorted_pySorted _)
  · refine List.Nodup.map ?_ (nodup_pySorted (List.nodup_dedup _))
    intro a b hab
    have h2 := congrArg String.data hab
    rw [String.data_append, String.data_append] at h2
    exact string_eq_of_data_eq (List.append_cancel_left h2)
  · intro s
    rw [List.mem_map]
    constructor
    · rintro ⟨p, hp, rfl⟩
      rw [mem_pySorted, List.mem_dedup, List.mem_map] at hp
      rcases hp with ⟨m, hm, rfl⟩
      exact ⟨m, hm, rfl⟩
    · rintro ⟨m, hm, rfl⟩
      exact ⟨m.pattern,
        mem_pySorted.mpr (List.mem_dedup.mpr (List.mem_map.mpr ⟨m, hm, rfl⟩)),
        rfl⟩

/-- Witness for C9 at a payload triggering two families. -/
theorem analyze_reasons_structure_witness :
    ("<script>alert(1)</script>" : String) ≠ ""
    ∧ ∃ A B, (analyze_input "<script>alert(1)</script>" "html").reasons = A ++ B
      ∧ List.Sorted strLeP A ∧ A.Nodup
      ∧ (∀ s, s ∈ A ↔
          ∃ m ∈ (analyze_input "<script>alert(1)</script>" "html").matchList,
            s = "group:" ++ m.group)
      ∧ List.Sorted strLeP B ∧ B.Nodup
      ∧ (∀ s, s ∈ B ↔
          ∃ m ∈ (analyze_input "<script>alert(1)</script>" "html").matchList,
            s = "pattern:" ++ m.pattern) :=
  ⟨by decide,
   analyze_reasons_structure "<script>alert(1)</script>" "html" (by decide)⟩

/-- C5: for every input with at least one match, `main_category` is the
family tag of the match whose first-occurrence index in the lowercased input
is minimal; since the match list is built in catalog scan order (families in
declaration order, substrings in declaration order within each family), a
tie on the minimal index is won by the pair evaluated first: the chosen
match is preceded in the scan only by matches of strictly larger index. -/
theorem analyze_main_category_first_min (v ctx : String)
    (h : (analyze_input v ctx).matchList ≠ []) :
    ∃ l1 m l2, (analyze_input v ctx).matchList = l1 ++ m :: l2
      ∧ (analyze_input v ctx).main_category = some m.group
      ∧ (∀ m2 ∈ (analyze_input v ctx).matchList, m.index ≤ m2.index)
      ∧ (∀ m1 ∈ l1, m.index < m1.index) := by
  have hv : v ≠ "" := by
    intro he
    subst he
    simp [analyze_input] at h
  rw [analyze_input_eq v ctx hv] at h ⊢
  rcases hms : _analyze_patterns (lowerL v.data) with _ | ⟨m, rest⟩
  · rw [hms] at h
    exact absurd rfl h
  · rcases minFold_decomp rest m with ⟨l1, r, l2, hdec, hfold, hmin, hstrict⟩
    refine ⟨l1, r, l2, hdec, ?_, hmin, hstrict⟩
    show (_extract_categories (m :: rest)).2 = some r.group
    rw [_extract_categories]
    simp only []
    rw [hfold]

/-- Witness for C5: `<img` at index 0 beats `onerror=` later in the string. -/
theorem analyze_main_category_first_min_witness :
    (analyze_input "<img src=x onerror=y>" "html").matchList ≠ []
    ∧ ∃ l1 m l2,
        (analyze_input "<img src=x onerror=y>" "html").matchList
          = l1 ++ m :: l2
        ∧ (analyze_input "<img src=x onerror=y>" "html").main_category
            = some m.group
        ∧ (∀ m2 ∈ (analyze_input "<img src=x onerror=y>" "html").matchList,
            m.index ≤ m2.index)
        ∧ (∀ m1 ∈ l1, m.index < m1.index) :=
  ⟨by decide,
   analyze_main_category_first_min "<img src=x onerror=y>" "html" (by decide)⟩

/-! ## Header Augmenter lemmas -/

theorem hasHeader_setdefault_self (h : List (String × String)) (k v : String) :
    hasHeader (setdefault h k v) k = true := by
  rw [setdefault]
  by_cases hh : hasHeader h k
  · rw [if_pos hh]
    exact hh
  · rw [if_neg hh]
    rw [hasHeader, List.any_append]
    simp [hasHeader]

theorem hasHeader_setdefault_mono {h : List (String × String)} {k' : String}
    (hh : hasHeader h k' = true) (k v : String) :
    hasHeader (setdefault h k v) k' = true := by
  rw [setdefault]
  by_cases h2 : hasHeader h k
  · rw [if_pos h2]
    exact hh
  · rw [if_neg h2]
    rw [hasHeader, List.any_append]
    rw [hasHeader] at hh
    simp [hh]

theorem setdefault_of_hasHeader {h : List (String × String)} {k : String}
    (hh : hasHeader h k = true) (v : String) : setdefault h k v = h := by
  rw [setdefault, if_pos hh]

theorem lookupHeader_setdefault_mono {h : List (String × String)}
    {k w : String} (hl : lookupHeader h k = some w) (k' v : String) :
    lookupHeader (setdefault h k' v) k = some w := by
  rw [setdefault]
  by_cases h2 : hasHeader h k'
  · rw [if_pos h2]
    exact hl
  · rw [if_neg h2]
    rw [lookupHeader] at hl ⊢
    rw [List.find?_append]
    rcases hfind : h.find? (fun p => decide (lowerS p.1 = lowerS k)) with _ | p
    · rw [hfind] at hl
      simp at hl
    · rw [hfind] at hl
      rw [hfind]
      exact hl

theorem countHeader_append_single (h : List (String × String))
    (p : String × String) (k : String) :
    countHeader (h ++ [p]) k
      = countHeader h k + (if lowerS p.1 = lowerS k then 1 else 0) := by
  rw [countHeader, countHeader, List.filter_append, List.length_append]
  congr 1
  by_cases hp : lowerS p.1 = lowerS k
  · simp [List.filter, hp]
  · simp [List.filter, hp]

theorem hasHeader_false_iff_count_zero (h : List (String × String))
    (k : String) : hasHeader h k = false ↔ countHeader h k = 0 := by
  rw [hasHeader, countHeader, List.any_eq_false, List.length_eq_zero,
    List.filter_eq_nil_iff]

theorem countHeader_setdefault_self {h : List (String × String)} {k : String}
    (hc : countHeader h k ≤ 1) (v : String) :
    countHeader (setdefault h k v) k = 1 := by
  rw [setdefault]
  by_cases hh : hasHeader h k
  · rw [if_pos hh]
    have h0 : countHeader h k ≠ 0 := by
      intro h0
      rw [← hasHeader_false_iff_count_zero] at h0
      simp [hh] at h0
    omega
  · rw [if_neg hh]
    rw [countHeader_append_single]
    have h0 : countHeader h k = 0 :=
      (hasHeader_false_iff_count_zero h k).mp (by simpa using hh)
    rw [h0]
    simp

theorem countHeader_setdefault_other {k k' : String}
    (hne : lowerS k' ≠ lowerS k) (h : List (String × String)) (v : String) :
    countHeader (setdefault h k' v) k = countHeader h k := by
  rw [setdefault]
  by_cases hh : hasHeader h k'
  · rw [if_pos hh]
  · rw [if_neg hh]
    rw [countHeader_append_single]
    simp [hne]

/-- C7: the Header Augmenter has set-if-absent semantics and is idempotent:
in mode `off` the headers are unchanged; in modes `log`/`block` a second
application changes nothing, no pre-existing header value is overridden, and
each of the three security headers ends up present exactly once whenever it
was not already duplicated. -/
theorem apply_security_headers_spec (cfg : Option (Option String))
    (h : List (String × String)) :
    (get_security_mode cfg = "off" → apply_security_headers cfg h = h)
    ∧ ((get_security_mode cfg = "log" ∨ get_security_mode cfg = "block") →
        apply_security_headers cfg (apply_security_headers cfg h)
            = apply_security_headers cfg h
        ∧ (∀ k w, lookupHeader h k = some w →
            lookupHeader (apply_security_headers cfg h) k = some w)
        ∧ (∀ k, k ∈ (["Content-Security-Policy", "X-Content-Type-Options",
              "X-Frame-Options"] : List String) →
            countHeader h k ≤ 1 →
            countHeader (apply_security_headers cfg h) k = 1)) := by
  constructor
  · intro hm
    simp [apply_security_headers, hm]
  · intro hm
    have happ : ∀ hh : List (String × String),
        apply_security_headers cfg hh =
          setdefault (setdefault (setdefault hh "Content-Security-Policy"
              "default-src \x27self\x27; script-src \x27self\x27; object-src \x27none\x27;")
            "X-Content-Type-Options" "nosniff") "X-Frame-Options" "DENY" := by
      intro hh
      rcases hm with hm | hm <;> simp [apply_security_headers, hm]
    refine ⟨?_, ?_, ?_⟩
    · rw [happ h, happ]
      have k1 : hasHeader (setdefault (setdefault (setdefault h
          "Content-Security-Policy"
          "default-src \x27self\x27; script-src \x27self\x27; object-src \x27none\x27;")
          "X-Content-Type-Options" "nosniff") "X-Frame-Options" "DENY")
          "Content-Security-Policy" = true :=
        hasHeader_setdefault_mono
          (hasHeader_setdefault_mono (hasHeader_setdefault_self _ _ _) _ _) _ _
      have k2 : hasHeader (setdefault (setdefault (setdefault h
          "Content-Security-Policy"
          "default-src \x27self\x27; script-src \x27self\x27; object-src \x27none\x27;")
          "X-Content-Type-Options" "nosniff") "X-Frame-Options" "DENY")
          "X-Content-Type-Options" = true :=
        hasHeader_setdefault_mono (hasHeader_setdefault_self _ _ _) _ _
      have k3 : hasHeader (setdefault (setdefault (setdefault h
          "Content-Security-Policy"
          "default-src \x27self\x27; script-src \x27self\x27; object-src \x27none\x27;")
          "X-Content-Type-Options" "nosniff") "X-Frame-Options" "DENY")
          "X-Frame-Options" = true :=
        hasHeader_setdefault_self _ _ _
      rw [setdefault_of_hasHeader k1, setdefault_of_hasHeader k2,
        setdefault_of_hasHeader k3]
    · intro k w hl
      rw [happ h]
      exact lookupHeader_setdefault_mono
        (lookupHeader_setdefault_mono
          (lookupHeader_setdefault_mono hl _ _) _ _) _ _
    · intro k hk hc
      rw [happ h]
      simp only [List.mem_cons, List.not_mem_nil, or_false] at hk
      rcases hk with rfl | rfl | rfl
      · rw [countHeader_setdefault_other (by decide),
          countHeader_setdefault_other (by decide)]
        exact countHeader_setdefault_self hc _
      · rw [countHeader_setdefault_other (by decide)]
        exact countHeader_setdefault_self
          (by rw [countHeader_setdefault_other (by decide)]; exact hc) _
      · exact countHeader_setdefault_self
          (by rw [countHeader_setdefault_other (by decide),
                countHeader_setdefault_other (by decide)]; exact hc) _

/-- Witness for C7: repeated application on an empty header map yields each
security header exactly once, and mode `off` leaves headers unchanged. -/
theorem apply_security_headers_spec_witness :
    (get_security_mode (some (some "log")) = "log"
      ∨ get_security_mode (some (some "log")) = "block")
    ∧ countHeader (apply_security_headers (some (some "log")) [])
        "Content-Security-Policy" = 1
    ∧ apply_security_headers (some (some "log"))
        (apply_security_headers (some (some "log")) [])
        = apply_security_headers (some (some "log")) []
    ∧ apply_security_headers none [("X-Frame-Options", "SAMEORIGIN")]
        = [("X-Frame-Options", "SAMEORIGIN")] :=
  ⟨Or.inl (by decide),
   ((apply_security_headers_spec (some (some "log")) []).2
      (Or.inl (by decide))).2.2 "Content-Security-Policy" (by decide) (by decide),
   ((apply_security_headers_spec (some (some "log")) []).2
      (Or.inl (by decide))).1,
   (apply_security_headers_spec none [("X-Frame-Options", "SAMEORIGIN")]).1
     (by decide)⟩
